import Mathlib

/-!
Verification of the schemachange configuration-resolution and
credential-resolution core against its natural-language specification.

The Python code is shallowly embedded: Python dicts become association
lists over `String` keys with Python-dict lookup semantics (first match
after construction keeps keys unique), Python `None` becomes the
`PyVal.none` constructor, fallible code returns `Except`.
-/

/-- A Python value as it appears in the option maps of schemachange:
`None`, booleans, integers, strings, nested dicts and lists. -/
inductive PyVal where
  | none
  | bool (b : Bool)
  | int (n : Int)
  | str (s : String)
  | dict (entries : List (String × PyVal))
  | list (elems : List PyVal)

/-- A Python dict with string keys, modelled as an association list.
Lookup takes the first matching binding; dict-construction operations
below keep keys unique, matching Python dict semantics. -/
abbrev PyDict := List (String × PyVal)

/-- `d[k]` / `d.get(k)`: first binding of key `k`, if any. -/
def dget (d : PyDict) (k : String) : Option PyVal :=
  (d.find? (fun p => p.1 == k)).map (fun p => p.2)

/-- `k in d`. -/
def dcontains (d : PyDict) (k : String) : Bool :=
  (dget d k).isSome

/-- `d.pop(k)` / `del d[k]`: remove every binding of key `k`. -/
def dremove (d : PyDict) (k : String) : PyDict :=
  d.filter (fun p => p.1 != k)

/-- `d[k] = v`: replace the value in place when the key exists
(keeping its position, as Python dicts do), else append the binding. -/
def dset (d : PyDict) (k : String) (v : PyVal) : PyDict :=
  if dcontains d k then d.map (fun p => if p.1 == k then (p.1, v) else p)
  else d ++ [(k, v)]

/-- Python `{**a, **b}`: all keys of both, `b` winning on collision.
With first-match lookup this is `b ++ a`. -/
def dunion (a b : PyDict) : PyDict := b ++ a

/-- `v is None`. -/
def isNone : PyVal → Bool
  | PyVal.none => true
  | _ => false

/-- The dict comprehension filter `{k: v for k, v in d.items() if v is not None}`. -/
def dfilterNotNone (d : PyDict) : PyDict :=
  d.filter (fun p => !isNone p.2)

/-- A Python dict built from a sequence of key/value pairs (dict
comprehension): later bindings of the same key overwrite earlier ones. -/
def dictOfPairs (l : List (String × PyVal)) : PyDict :=
  l.foldl (fun d p => dset d p.1 p.2) []

/-- Python `str(v)` for the scalar values exercised by this spec.
The `repr`-style rendering Python uses for containers is not modelled;
no claim evaluates `str` on a container. -/
def pyStr : PyVal → String
  | PyVal.none => "None"
  | PyVal.bool true => "True"
  | PyVal.bool false => "False"
  | PyVal.int n => toString n
  | PyVal.str s => s
  | PyVal.dict _ => "<dict>"
  | PyVal.list _ => "<list>"

namespace PyDictLemmas

theorem dget_nil (k : String) : dget [] k = Option.none := rfl

theorem dget_cons (k' k : String) (v : PyVal) (d : PyDict) :
    dget ((k', v) :: d) k = if k' == k then some v else dget d k := by
  by_cases h : k' == k
  · simp [dget, List.find?, h]
  · simp only [Bool.not_eq_true] at h
    simp [dget, List.find?, h]

theorem dget_append (a b : PyDict) (k : String) :
    dget (a ++ b) k = (dget a k).orElse (fun _ => dget b k) := by
  induction a with
  | nil => simp [dget_nil, Option.orElse]
  | cons p a ih =>
    rcases p with ⟨k', v⟩
    rw [List.cons_append, dget_cons, dget_cons]
    by_cases h : k' == k
    · simp [h, Option.orElse]
    · simp only [Bool.not_eq_true] at h
      simp [h, ih]

theorem dget_dremove_self (d : PyDict) (k : String) :
    dget (dremove d k) k = Option.none := by
  induction d with
  | nil => rfl
  | cons p d ih =>
    rcases p with ⟨k', v⟩
    by_cases h : k' == k
    · simpa [dremove, List.filter_cons, bne, h] using ih
    · simp only [Bool.not_eq_true] at h
      simpa [dremove, List.filter_cons, bne, h, dget_cons] using ih

theorem dget_dremove_ne (d : PyDict) (k k' : String) (h : k' ≠ k) :
    dget (dremove d k) k' = dget d k' := by
  induction d with
  | nil => rfl
  | cons p d ih =>
    rcases p with ⟨k₀, v⟩
    by_cases h0 : k₀ == k
    · simp only [beq_iff_eq] at h0
      subst h0
      have hne : (k₀ == k') = false := by
        simp only [beq_eq_false_iff_ne]
        exact fun e => h e.symm
      rw [show dremove ((k₀, v) :: d) k₀ = dremove d k₀ from by
        simp [dremove, List.filter_cons]]
      rw [dget_cons, hne, ih]
      simp
    · simp only [Bool.not_eq_true] at h0
      rw [show dremove ((k₀, v) :: d) k = (k₀, v) :: dremove d k from by
        simp [dremove, List.filter_cons, bne, h0]]
      rw [dget_cons, dget_cons]
      by_cases h1 : k₀ == k'
      · simp [h1]
      · simp only [Bool.not_eq_true] at h1
        simp [h1, ih]

theorem dget_map_replace (d : PyDict) (k k' : String) (v : PyVal) :
    dget (d.map (fun p => if p.1 == k then (p.1, v) else p)) k' =
      if k' == k then (dget d k').map (fun _ => v) else dget d k' := by
  induction d with
  | nil => by_cases h : k' == k <;> simp [h, dget_nil]
  | cons p d ih =>
    rcases p with ⟨k₀, w⟩
    simp only [List.map_cons]
    by_cases h0 : k₀ == k
    · rw [if_pos h0]
      by_cases h1 : k₀ == k'
      · have hk : (k' == k) = true := by
          simp only [beq_iff_eq] at h0 h1 ⊢
          rw [← h1, h0]
        rw [dget_cons, if_pos h1, dget_cons, if_pos h1, if_pos hk]
        simp
      · simp only [Bool.not_eq_true] at h1
        rw [dget_cons, h1, dget_cons, h1, ih]
        by_cases hk : k' == k <;> simp [hk]
    · simp only [Bool.not_eq_true] at h0
      rw [if_neg (by simp [h0])]
      by_cases h1 : k₀ == k'
      · have hk : (k' == k) = false := by
          simp only [beq_iff_eq] at h1
          simp only [beq_eq_false_iff_ne] at h0 ⊢
          exact fun e => h0 (h1 ▸ e)
        rw [dget_cons, if_pos h1, dget_cons, if_pos h1, if_neg (by simp [hk])]
      · simp only [Bool.not_eq_true] at h1
        rw [dget_cons, h1, dget_cons, h1, ih]
        by_cases hk : k' == k <;> simp [hk]

theorem dget_dset_self (d : PyDict) (k : String) (v : PyVal) :
    dget (dset d k v) k = some v := by
  rw [dset]
  by_cases hc : dcontains d k
  · rw [if_pos hc, dget_map_replace]
    simp only [beq_self_eq_true, if_pos rfl]
    rw [dcontains] at hc
    rcases Option.isSome_iff_exists.mp hc with ⟨w, hw⟩
    rw [hw]
    rfl
  · rw [if_neg hc, dget_append]
    have hnone : dget d k = Option.none := by
      rcases hdd : dget d k with _ | w
      · rfl
      · exact absurd (by rw [dcontains, hdd]; rfl) hc
    rw [hnone]
    simp [dget_cons, Option.orElse]

theorem dget_dset_ne (d : PyDict) (k k' : String) (v : PyVal) (h : k' ≠ k) :
    dget (dset d k v) k' = dget d k' := by
  rw [dset]
  by_cases hc : dcontains d k
  · rw [if_pos hc, dget_map_replace, if_neg (by simp [h])]
  · rw [if_neg hc, dget_append, dget_cons]
    have hk : (k == k') = false := by
      simp only [beq_eq_false_iff_ne]
      exact fun e => h e.symm
    rw [hk]
    cases hd : dget d k' <;> simp [Option.orElse, dget_nil]

theorem dget_filterNotNone_some (d : PyDict) (k : String) (v : PyVal)
    (hv : isNone v = false) (h : dget d k = some v) :
    dget (dfilterNotNone d) k = some v := by
  induction d with
  | nil => cases h
  | cons p d ih =>
    rcases p with ⟨k₀, w⟩
    rw [dget_cons] at h
    by_cases h0 : k₀ == k
    · rw [if_pos h0] at h
      have hw : w = v := by injection h
      subst hw
      rw [show dfilterNotNone ((k₀, w) :: d) = (k₀, w) :: dfilterNotNone d from by
        simp [dfilterNotNone, List.filter_cons, hv]]
      rw [dget_cons, if_pos h0]
    · simp only [Bool.not_eq_true] at h0
      rw [h0] at h
      rw [if_neg Bool.false_ne_true] at h
      by_cases hw : isNone w
      · rw [show dfilterNotNone ((k₀, w) :: d) = dfilterNotNone d from by
          simp [dfilterNotNone, List.filter_cons, hw]]
        exact ih h
      · simp only [Bool.not_eq_true] at hw
        rw [show dfilterNotNone ((k₀, w) :: d) = (k₀, w) :: dfilterNotNone d from by
          simp [dfilterNotNone, List.filter_cons, hw]]
        rw [dget_cons, h0, if_neg Bool.false_ne_true]
        exact ih h

theorem dget_filterNotNone_of_none (d : PyDict) (k : String)
    (h : dget d k = Option.none) :
    dget (dfilterNotNone d) k = Option.none := by
  induction d with
  | nil => rfl
  | cons p d ih =>
    rcases p with ⟨k₀, w⟩
    rw [dget_cons] at h
    by_cases h0 : k₀ == k
    · rw [if_pos h0] at h
      cases h
    · simp only [Bool.not_eq_true] at h0
      rw [h0] at h
      rw [if_neg Bool.false_ne_true] at h
      by_cases hw : isNone w
      · rw [show dfilterNotNone ((k₀, w) :: d) = dfilterNotNone d from by
          simp [dfilterNotNone, List.filter_cons, hw]]
        exact ih h
      · simp only [Bool.not_eq_true] at hw
        rw [show dfilterNotNone ((k₀, w) :: d) = (k₀, w) :: dfilterNotNone d from by
          simp [dfilterNotNone, List.filter_cons, hw]]
        rw [dget_cons, h0, if_neg Bool.false_ne_true]
        exact ih h

theorem dget_eq_none_of_not_mem (d : PyDict) (k : String)
    (h : k ∉ d.map Prod.fst) : dget d k = Option.none := by
  rw [dget, List.find?_eq_none.mpr]
  · rfl
  · intro p hp hbeq
    simp only [beq_iff_eq] at hbeq
    exact h (hbeq ▸ List.mem_map_of_mem Prod.fst hp)

theorem dget_filterNotNone_of_isNone (d : PyDict) (k : String)
    (hnd : (d.map Prod.fst).Nodup) (h : dget d k = some PyVal.none) :
    dget (dfilterNotNone d) k = Option.none := by
  induction d with
  | nil => cases h
  | cons p d ih =>
    rcases p with ⟨k₀, w⟩
    rw [List.map_cons, List.nodup_cons] at hnd
    rw [dget_cons] at h
    by_cases h0 : k₀ == k
    · rw [if_pos h0] at h
      injection h with h
      subst h
      rw [show dfilterNotNone ((k₀, PyVal.none) :: d) = dfilterNotNone d from by
        simp [dfilterNotNone, List.filter_cons, isNone]]
      simp only [beq_iff_eq] at h0
      subst h0
      exact dget_filterNotNone_of_none _ _ (dget_eq_none_of_not_mem _ _ hnd.1)
    · simp only [Bool.not_eq_true] at h0
      rw [h0] at h
      rw [if_neg Bool.false_ne_true] at h
      by_cases hw : isNone w
      · rw [show dfilterNotNone ((k₀, w) :: d) = dfilterNotNone d from by
          simp [dfilterNotNone, List.filter_cons, hw]]
        exact ih hnd.2 h
      · simp only [Bool.not_eq_true] at hw
        rw [show dfilterNotNone ((k₀, w) :: d) = (k₀, w) :: dfilterNotNone d from by
          simp [dfilterNotNone, List.filter_cons, hw]]
        rw [dget_cons, h0, if_neg Bool.false_ne_true]
        exact ih hnd.2 h

theorem dget_filterNotNone_notNone (d : PyDict) (k : String) (v : PyVal)
    (h : dget (dfilterNotNone d) k = some v) : isNone v = false := by
  have hmem : (k, v) ∈ dfilterNotNone d ∨ True := Or.inr trivial
  rcases hfind : (dfilterNotNone d).find? (fun p => p.1 == k) with _ | p
  · rw [dget, hfind] at h
    cases h
  · have hp : p ∈ dfilterNotNone d := List.mem_of_find?_eq_some hfind
    rw [dget, hfind] at h
    injection h with h
    rw [dfilterNotNone, List.mem_filter] at hp
    rcases hp with ⟨_, hkeep⟩
    rw [← h]
    simpa using hkeep

end PyDictLemmas

/-- Python `str.replace` on character lists: replace each
non-overlapping occurrence of `pat`, left to right. Fuelled so that it
reduces definitionally; `replaceSub` supplies fuel `s.length`, which is
enough for every nonempty pattern. -/
def replaceSubAux (pat rep : List Char) : Nat → List Char → List Char
  | _, [] => []
  | 0, s => s
  | Nat.succ n, c :: rest =>
    if pat.isPrefixOf (c :: rest) then
      rep ++ replaceSubAux pat rep n ((c :: rest).drop pat.length)
    else c :: replaceSubAux pat rep n rest

/-- Python `s.replace(pat, rep)` on character lists. -/
def replaceSub (pat rep s : List Char) : List Char :=
  replaceSubAux pat rep s.length s

/-- Python `s.replace(pat, rep)`. -/
def pyReplace (s pat rep : String) : String :=
  String.mk (replaceSub pat.data rep.data s.data)

/-- Whether `pat` occurs as a contiguous substring of `s` (Python
`pat in s`). -/
def containsSub (pat : List Char) : List Char → Bool
  | [] => pat.isEmpty
  | c :: rest => pat.isPrefixOf (c :: rest) || containsSub pat rest

/-- Python `", ".join(l)`. -/
def joinComma : List String → String
  | [] => ""
  | [x] => x
  | x :: xs => x ++ ", " ++ joinComma xs

/-- Python `Path(folder) / name` rendered as a string, for the folder
shapes this configuration uses: `Path(".") / name` (and the empty
folder) collapse to `name`, otherwise the parts are joined with a
slash. -/
def path_join (folder name : String) : String :=
  if folder = "." ∨ folder = "" then name else folder ++ "/" ++ name

/-- The Python constant `logging.DEBUG` (10). -/
def logging_DEBUG : PyVal := PyVal.int 10

/-- The key rewriting of `get_yaml_config_kwargs`
(src/schemachange/config/get_merged_config.py):
`k.replace("-", "_").replace("oauthconfig", "oauth_config")`. -/
def normalizeKey (k : String) : String :=
  pyReplace (pyReplace k "-" "_") "oauthconfig" "oauth_config"

/-- The `verbose` handling of `get_yaml_config_kwargs`: when a
`verbose` key is present (whatever its value), set `log_level` to
`logging.DEBUG` and pop `verbose`. -/
def yaml_verbose_step (kwargs : PyDict) : PyDict :=
  if dcontains kwargs "verbose"
  then dremove (dset kwargs "log_level" logging_DEBUG) "verbose"
  else kwargs

/-- The `vars` handling of `get_yaml_config_kwargs`:
`kwargs["config_vars"] = kwargs.pop("vars")` when a `vars` key is
present. -/
def yaml_vars_step (kwargs : PyDict) : PyDict :=
  match dget kwargs "vars" with
  | some v => dset (dremove kwargs "vars") "config_vars" v
  | Option.none => kwargs

/-- `get_yaml_config_kwargs` (src/schemachange/config/get_merged_config.py):
rewrite the loaded YAML keys with `normalizeKey` (a dict comprehension,
so a later duplicate of a rewritten key overwrites an earlier one),
turn a present `verbose` key into `log_level = logging.DEBUG`, and
rename a present `vars` key to `config_vars`. -/
def get_yaml_config_kwargs (yamlRaw : PyDict) : PyDict :=
  yaml_vars_step (yaml_verbose_step
    (dictOfPairs (yamlRaw.map (fun p => (normalizeKey p.1, p.2)))))

/-- `kwargs.pop("config_vars", None)` followed by the `None`-to-`{}`
default of `get_merged_config`: the popped value with Python `None`
(or an absent key) folded to an empty dict. -/
def pop_vars_val (kwargs : PyDict) : PyVal :=
  match dget kwargs "config_vars" with
  | some PyVal.none => PyVal.dict []
  | some v => v
  | Option.none => PyVal.dict []

/-- `cli_kwargs.pop("config_folder", ".")` of `get_merged_config`. -/
def resolve_config_folder (kwargs : PyDict) : PyVal :=
  (dget kwargs "config_folder").getD (PyVal.str ".")

/-- Modelled from the spec: the fatal error of `validate_directory`
(schemachange.config.utils, not under src/) when the named path is
missing or not a directory. -/
def dir_error_message (folder : PyVal) : String :=
  "Invalid directory: " ++ pyStr folder

/-- The final keyword set of `get_merged_config` (lines 54-59 of
src/schemachange/config/get_merged_config.py): the two literal entries
`config_file_path` and `config_vars`, overlaid by the YAML entries
whose value is not `None`, overlaid by the CLI entries whose value is
not `None` (rightmost wins in the Python dict literal, so the CLI
entries come first in this first-match representation). -/
def build_kwargs (config_file_path : String) (config_vars : PyDict)
    (yamlKwargs cliKwargs : PyDict) : PyDict :=
  dfilterNotNone cliKwargs ++ dfilterNotNone yamlKwargs ++
    [("config_vars", PyVal.dict config_vars),
     ("config_file_path", PyVal.str config_file_path)]

/-- `get_merged_config` (src/schemachange/config/get_merged_config.py)
up to the subcommand factory dispatch. The filesystem is abstracted:
`isDir` is the check of `validate_directory` and `loadYaml` the result
of `load_yaml_config` at a path (both helpers live outside src/);
`cliKwargs` is the map produced by `parse_cli_args`. Returns the
keyword set handed to the factory, or the fatal configuration error.
A non-mapping `vars` value, which Python would reject with a TypeError
at the `{**yaml_vars, **cli_vars}` merge, is the error case of the
match. -/
def get_merged_config_kwargs (isDir : PyVal → Bool) (loadYaml : String → PyDict)
    (cliKwargs : PyDict) : Except String PyDict :=
  let cliConfigVars := pop_vars_val cliKwargs
  let cliKwargs1 := dremove cliKwargs "config_vars"
  let configFolder := resolve_config_folder cliKwargs1
  let cliKwargs2 := dremove cliKwargs1 "config_folder"
  if isDir configFolder then
    let configFilePath := path_join (pyStr configFolder) "schemachange-config.yml"
    let yamlKwargs := get_yaml_config_kwargs (loadYaml configFilePath)
    let yamlConfigVars := pop_vars_val yamlKwargs
    let yamlKwargs1 := dremove yamlKwargs "config_vars"
    match cliConfigVars, yamlConfigVars with
    | PyVal.dict cv, PyVal.dict yv =>
        Except.ok (build_kwargs configFilePath (dunion yv cv) yamlKwargs1 cliKwargs2)
    | _, _ => Except.error "TypeError: vars must be a mapping"
  else
    Except.error (dir_error_message configFolder)

/-- The token-missing error message of `get_oauth_token`
(src/schemachange/session/utils.py): the response keys joined with
", ", the expected field name, and — when the response carries one —
its `error_description` value. -/
def oauth_error_message (token_name : String) (response_dict : PyDict) : String :=
  let keys := joinComma (response_dict.map Prod.fst)
  let base := "Response Json contains keys: " ++ keys ++ " \n but not " ++ token_name
  match dget response_dict "error_description" with
  | some d => base ++ "\n error description: " ++ pyStr d
  | Option.none => base

/-- The response handling of `get_oauth_token`: return the configured
field of the parsed JSON response, or raise the diagnostic KeyError. -/
def get_oauth_token_result (token_name : String) (response_dict : PyDict) :
    Except String PyVal :=
  match dget response_dict token_name with
  | some v => Except.ok v
  | Option.none => Except.error (oauth_error_message token_name response_dict)

/-- What one call of `get_oauth_token` does: either a KeyError on the
OAuthConfig mapping itself, raised before any HTTP request is issued,
or exactly one POST whose request fields were read from the config and
whose parsed JSON response is handled by `get_oauth_token_result`. -/
inductive OAuthOutcome where
  | keyError (key : String)
  | requested (url headers payload token_name : PyVal)
      (result : Except String PyVal)

/-- `get_oauth_token` (src/schemachange/session/utils.py). The HTTP
layer is abstracted: `response_dict` is the JSON object parsed from the
body of the single POST. The four config subscripts happen, in source
order, before `requests.post`; the configured token field name is a
string in every use, rendered with `pyStr`. -/
def get_oauth_token_model (oauth_config : PyDict) (response_dict : PyDict) :
    OAuthOutcome :=
  match dget oauth_config "token-provider-url" with
  | Option.none => OAuthOutcome.keyError "token-provider-url"
  | some url =>
    match dget oauth_config "token-request-headers" with
    | Option.none => OAuthOutcome.keyError "token-request-headers"
    | some headers =>
      match dget oauth_config "token-request-payload" with
      | Option.none => OAuthOutcome.keyError "token-request-payload"
      | some payload =>
        match dget oauth_config "token-response-name" with
        | Option.none => OAuthOutcome.keyError "token-response-name"
        | some tn =>
          OAuthOutcome.requested url headers payload tn
            (get_oauth_token_result (pyStr tn) response_dict)

/-- `get_private_key_password` (src/schemachange/session/utils.py):
`os.getenv("SNOWFLAKE_PRIVATE_KEY_PASSPHRASE", "")`, a falsy (empty)
result meaning "no passphrase". `envVal` is the state of the
environment variable `SNOWFLAKE_PRIVATE_KEY_PASSPHRASE`. -/
def get_private_key_password (envVal : Option String) : Option String :=
  let private_key_password := envVal.getD ""
  if private_key_password ≠ "" then some private_key_password else Option.none

/-- A PEM private-key file, abstracted: whether it is encrypted, the
passphrase that decrypts it when it is, and the unencrypted PKCS8 DER
encoding of its key material. -/
structure PEMKey where
  encrypted : Bool
  passphrase : String
  derBytes : List Nat

/-- Modelled from the spec: `serialization.load_pem_private_key` of the
cryptography library (a third-party dependency, not under src/) —
decrypt the key with the optional passphrase; a wrong or absent
passphrase on an encrypted key is a decryption error, and a passphrase
on an unencrypted key is likewise rejected. -/
def load_pem_private_key (key : PEMKey) (password : Option String) :
    Except String PEMKey :=
  if key.encrypted then
    match password with
    | some p =>
        if p = key.passphrase then Except.ok key
        else Except.error "Incorrect password or PEM decryption error"
    | Option.none => Except.error "Password was not given but private key is encrypted"
  else
    match password with
    | some _ => Except.error "Password was given but private key is not encrypted"
    | Option.none => Except.ok key

/-- `get_private_key_bytes` (src/schemachange/session/utils.py): load
the PEM key with the environment-sourced passphrase and re-serialize it
(`private_bytes` with DER encoding, PKCS8 format, no encryption), which
the abstraction carries as the key's `derBytes`. -/
def get_private_key_bytes (envVal : Option String) (key : PEMKey) :
    Except String (List Nat) :=
  match load_pem_private_key key (get_private_key_password envVal) with
  | Except.ok k => Except.ok k.derBytes
  | Except.error e => Except.error e

/-- Modelled from the spec: the three-part change-history table
identifier of `schemachange.config.ChangeHistoryTable` (not under src/;
only src/tests imports it). -/
structure ChangeHistoryTable where
  table_name : String
  schema_name : String
  database_name : String
deriving DecidableEq

/-- Modelled from the spec: construction from optionally supplied
segments — schema defaults to `SCHEMACHANGE`, database to `METADATA`;
the table segment has no default and omitting it is a construction
error. -/
def mkChangeHistoryTable (database schema table : Option String) :
    Except String ChangeHistoryTable :=
  match table with
  | Option.none => Except.error "A change history table name is required"
  | some t => Except.ok ⟨t, schema.getD "SCHEMACHANGE", database.getD "METADATA"⟩

/-- Split a character list at every occurrence of `c` (Python
`str.split` with a single-character separator). -/
def splitOnChar (c : Char) (s : List Char) : List (List Char) :=
  s.foldr (fun ch acc =>
    match acc with
    | [] => [[ch]]
    | cur :: rest => if ch = c then [] :: cur :: rest else (ch :: cur) :: rest) [[]]

/-- Modelled from the spec: parsing a dotted `database.schema.table`
string into the identifier, omitted leading segments taking their
defaults; more than three segments is a construction error. -/
def change_history_table_from_str (s : String) : Except String ChangeHistoryTable :=
  match (splitOnChar '.' s.data).map String.mk with
  | [t] => mkChangeHistoryTable Option.none Option.none (some t)
  | [sc, t] => mkChangeHistoryTable Option.none (some sc) (some t)
  | [db, sc, t] => mkChangeHistoryTable (some db) (some sc) (some t)
  | _ => Except.error ("Invalid change history table name: " ++ s)

namespace StrLemmas

theorem replaceSubAux_of_not_contains (pat rep : List Char) (n : Nat) (s : List Char)
    (h : containsSub pat s = false) : replaceSubAux pat rep n s = s := by
  induction n generalizing s with
  | zero => cases s <;> rfl
  | succ n ih =>
    cases s with
    | nil => rfl
    | cons c rest =>
      rw [containsSub, Bool.or_eq_false_iff] at h
      simp only [replaceSubAux]
      rw [if_neg (by simp [h.1]), ih rest h.2]

theorem replaceSub_of_not_contains (pat rep s : List Char)
    (h : containsSub pat s = false) : replaceSub pat rep s = s :=
  replaceSubAux_of_not_contains pat rep s.length s h

theorem pyReplace_of_not_contains (s pat rep : String)
    (h : containsSub pat.data s.data = false) : pyReplace s pat rep = s := by
  rw [pyReplace, replaceSub_of_not_contains _ _ _ h]

theorem replaceSubAux_singleton (a b : Char) (n : Nat) (s : List Char)
    (h : s.length ≤ n) :
    replaceSubAux [a] [b] n s = s.map (fun c => if c = a then b else c) := by
  induction s generalizing n with
  | nil => cases n <;> rfl
  | cons c rest ih =>
    cases n with
    | zero => exact absurd h (Nat.not_succ_le_zero _)
    | succ m =>
      simp only [replaceSubAux]
      by_cases hc : c = a
      · subst hc
        rw [if_pos (by simp [List.isPrefixOf])]
        simp only [List.map_cons, if_pos rfl, List.length_singleton, List.drop_succ_cons,
          List.drop_zero]
        rw [ih m (Nat.le_of_succ_le_succ h)]
        rfl
      · rw [if_neg (by
          simp only [List.isPrefixOf, List.isPrefixOf_nil_left, Bool.and_true, beq_iff_eq]
          exact fun e => hc e.symm)]
        simp only [List.map_cons, if_neg hc]
        rw [ih m (Nat.le_of_succ_le_succ h)]

theorem pyReplace_dash (s : String) :
    pyReplace s "-" "_" = String.mk (s.data.map (fun c => if c = '-' then '_' else c)) :=
  congrArg String.mk (replaceSubAux_singleton '-' '_' s.data.length s.data (Nat.le_refl _))

theorem isInfix_self_append (l t : List Char) : l <:+: l ++ t :=
  ⟨[], t, by simp⟩

theorem isInfix_append_left (l₀ l₁ l₂ : List Char) (h : l₁ <:+: l₂) :
    l₁ <:+: l₀ ++ l₂ := by
  rcases h with ⟨s, t, e⟩
  exact ⟨l₀ ++ s, t, by rw [← e]; simp [List.append_assoc]⟩

theorem isInfix_append_right (l₀ l₁ l₂ : List Char) (h : l₁ <:+: l₂) :
    l₁ <:+: l₂ ++ l₀ := by
  rcases h with ⟨s, t, e⟩
  exact ⟨s, t ++ l₀, by rw [← e]; simp [List.append_assoc]⟩

theorem infix_joinComma (l : List String) (k : String) (h : k ∈ l) :
    k.data <:+: (joinComma l).data := by
  induction l with
  | nil => cases h
  | cons x xs ih =>
    cases xs with
    | nil =>
      rcases List.mem_singleton.mp h with rfl
      exact List.infix_refl _
    | cons y ys =>
      rw [show joinComma (x :: y :: ys) = x ++ ", " ++ joinComma (y :: ys) from rfl]
      rw [String.data_append, String.data_append]
      rcases List.mem_cons.mp h with rfl | h
      · exact isInfix_append_right _ _ _ (isInfix_self_append _ _)
      · exact isInfix_append_left _ _ _ (ih h)

end StrLemmas

open PyDictLemmas StrLemmas

theorem isNone_eq_false_iff (v : PyVal) : isNone v = false ↔ v ≠ PyVal.none := by
  cases v <;> simp [isNone]

theorem dget_yaml_vars_step (d : PyDict) (k : String)
    (h1 : k ≠ "vars") (h2 : k ≠ "config_vars") :
    dget (yaml_vars_step d) k = dget d k := by
  rcases hv : dget d "vars" with _ | v
  · rw [yaml_vars_step, hv]
  · rw [yaml_vars_step, hv]
    rw [dget_dset_ne _ _ _ _ h2, dget_dremove_ne _ _ _ h1]

theorem yaml_verbose_step_of_present (d : PyDict) (v : PyVal)
    (h : dget d "verbose" = some v) :
    dget (yaml_verbose_step d) "verbose" = Option.none ∧
    dget (yaml_verbose_step d) "log_level" = some logging_DEBUG := by
  have hc : dcontains d "verbose" = true := by rw [dcontains, h]; rfl
  rw [yaml_verbose_step, if_pos hc]
  exact ⟨dget_dremove_self _ _,
    by rw [dget_dremove_ne _ _ _ (by decide), dget_dset_self]⟩

theorem yaml_verbose_step_of_absent (d : PyDict)
    (h : dget d "verbose" = Option.none) :
    yaml_verbose_step d = d := by
  rw [yaml_verbose_step, if_neg]
  intro hc
  rw [dcontains, h] at hc
  cases hc

/-- C4: the private-key passphrase comes from the environment variable
SNOWFLAKE_PRIVATE_KEY_PASSPHRASE, with an unset variable or an empty
string meaning "no passphrase"; under no passphrase an unencrypted PEM
key loads successfully to its non-empty unencrypted DER/PKCS8 bytes,
while an encrypted key with a wrong or absent passphrase fails with a
decryption error. -/
theorem C4_private_key (key : PEMKey) :
    get_private_key_password Option.none = Option.none ∧
    get_private_key_password (some "") = Option.none ∧
    (key.encrypted = false → key.derBytes ≠ [] →
      ∃ b, get_private_key_bytes Option.none key = Except.ok b ∧ b ≠ [] ∧
        get_private_key_bytes (some "") key = Except.ok b) ∧
    (key.encrypted = true →
      ∀ envVal : Option String,
        get_private_key_password envVal ≠ some key.passphrase →
        ∃ e, get_private_key_bytes envVal key = Except.error e) := by
  refine ⟨rfl, rfl, ?_, ?_⟩
  · intro henc hne
    refine ⟨key.derBytes, ?_, hne, ?_⟩
    · rw [get_private_key_bytes,
        show get_private_key_password Option.none = Option.none from rfl,
        load_pem_private_key, if_neg (by rw [henc]; exact Bool.false_ne_true)]
    · rw [get_private_key_bytes,
        show get_private_key_password (some "") = Option.none from rfl,
        load_pem_private_key, if_neg (by rw [henc]; exact Bool.false_ne_true)]
  · intro henc envVal hpw
    rcases hp : get_private_key_password envVal with _ | p
    · exact ⟨_, by rw [get_private_key_bytes, hp, load_pem_private_key, if_pos henc]⟩
    · have hne : ¬ (p = key.passphrase) := fun e => hpw (by rw [hp, e])
      exact ⟨_, by rw [get_private_key_bytes, hp, load_pem_private_key,
        if_pos henc, if_neg hne]⟩

/-- C4 witness: a concrete unencrypted key loads to its non-empty
buffer with no passphrase, and a concrete encrypted key fails with a
wrong passphrase. -/
theorem C4_private_key_witness :
    get_private_key_password Option.none = Option.none ∧
    (∃ b, get_private_key_bytes Option.none ⟨false, "", [1, 2]⟩ = Except.ok b ∧
      b ≠ [] ∧ get_private_key_bytes (some "") ⟨false, "", [1, 2]⟩ = Except.ok b) ∧
    (∃ e, get_private_key_bytes (some "wrong") ⟨true, "right", [1]⟩ =
      Except.error e) :=
  ⟨(C4_private_key ⟨false, "", [1, 2]⟩).1,
   (C4_private_key ⟨false, "", [1, 2]⟩).2.2.1 rfl (by decide),
   (C4_private_key ⟨true, "right", [1]⟩).2.2.2 rfl (some "wrong") (by decide)⟩

/-- C5 counterexample: the key `oauthconfigs` contains no hyphen (the
hyphen rewrite leaves it unchanged) and is not the literal key
`oauthconfig`, yet the rename step alters it to `oauth_configs` — the
rename is a substring replacement, not a whole-key rename, so a key
other than the literal `oauthconfig` is altered by it. -/
theorem C5_counterexample :
    normalizeKey "oauthconfigs" = "oauth_configs" ∧
    pyReplace "oauthconfigs" "-" "_" = "oauthconfigs" ∧
    ("oauthconfigs" : String) ≠ "oauthconfig" ∧
    ("oauth_configs" : String) ≠ "oauthconfigs" :=
  ⟨rfl, rfl, by decide, by decide⟩

/-- C5 (amended): every key has each hyphen replaced with an
underscore; the rename step then replaces every occurrence of the
substring `oauthconfig` in the hyphen-rewritten key with
`oauth_config` — in particular the literal key `oauthconfig` becomes
`oauth_config`, and a rewritten key not containing that substring is
left unchanged by the rename. -/
theorem C5_normalizeKey_behavior :
    (∀ k : String, pyReplace k "-" "_" =
      String.mk (k.data.map (fun c => if c = '-' then '_' else c))) ∧
    normalizeKey "oauthconfig" = "oauth_config" ∧
    (∀ k : String,
      containsSub "oauthconfig".data (pyReplace k "-" "_").data = false →
      normalizeKey k = pyReplace k "-" "_") := by
  refine ⟨pyReplace_dash, rfl, ?_⟩
  intro k h
  rw [normalizeKey, pyReplace_of_not_contains _ _ _ h]

/-- C5 witness: the rename leaves the hyphen-rewritten key
`snowflake_account` unchanged. -/
theorem C5_normalizeKey_behavior_witness :
    pyReplace "snowflake-account" "-" "_" =
      String.mk ("snowflake-account".data.map (fun c => if c = '-' then '_' else c)) ∧
    normalizeKey "oauthconfig" = "oauth_config" ∧
    containsSub "oauthconfig".data (pyReplace "snowflake-account" "-" "_").data = false ∧
    normalizeKey "snowflake-account" = pyReplace "snowflake-account" "-" "_" :=
  ⟨C5_normalizeKey_behavior.1 "snowflake-account",
   C5_normalizeKey_behavior.2.1,
   by decide,
   C5_normalizeKey_behavior.2.2 "snowflake-account" (by decide)⟩

/-- C6: after key rewriting, a present `verbose` key (whatever its
value, so in particular any truthy one) is removed and `log_level` is
set to the debug sentinel; when `verbose` is absent the step sets no
`log_level` key — the `log_level` entry of the result is exactly the
one of the rewritten mapping. -/
theorem C6_verbose_handling (yamlRaw : PyDict) :
    (∀ v : PyVal,
      dget (dictOfPairs (yamlRaw.map (fun p => (normalizeKey p.1, p.2)))) "verbose" =
        some v →
      dget (get_yaml_config_kwargs yamlRaw) "verbose" = Option.none ∧
      dget (get_yaml_config_kwargs yamlRaw) "log_level" = some logging_DEBUG) ∧
    (dget (dictOfPairs (yamlRaw.map (fun p => (normalizeKey p.1, p.2)))) "verbose" =
        Option.none →
      dget (get_yaml_config_kwargs yamlRaw) "log_level" =
        dget (dictOfPairs (yamlRaw.map (fun p => (normalizeKey p.1, p.2)))) "log_level") := by
  constructor
  · intro v hv
    have h := yaml_verbose_step_of_present _ v hv
    rw [get_yaml_config_kwargs]
    exact ⟨by rw [dget_yaml_vars_step _ _ (by decide) (by decide), h.1],
      by rw [dget_yaml_vars_step _ _ (by decide) (by decide), h.2]⟩
  · intro hv
    rw [get_yaml_config_kwargs, yaml_verbose_step_of_absent _ hv,
      dget_yaml_vars_step _ _ (by decide) (by decide)]

/-- C6 witness: a YAML mapping with `verbose: true` loses `verbose` and
gains `log_level = logging.DEBUG`. -/
theorem C6_verbose_handling_witness :
    dget (dictOfPairs ([("verbose", PyVal.bool true)].map
        (fun p => (normalizeKey p.1, p.2)))) "verbose" = some (PyVal.bool true) ∧
    dget (get_yaml_config_kwargs [("verbose", PyVal.bool true)]) "verbose" =
      Option.none ∧
    dget (get_yaml_config_kwargs [("verbose", PyVal.bool true)]) "log_level" =
      some logging_DEBUG := by
  have h := (C6_verbose_handling [("verbose", PyVal.bool true)]).1
    (PyVal.bool true) rfl
  exact ⟨rfl, h.1, h.2⟩

/-- C7: a dotted `database.schema.table` argument yields exactly those
three segments; an omitted schema defaults to SCHEMACHANGE and an
omitted database to METADATA; the table segment has no default and
omitting it is a construction error. -/
theorem C7_change_history_table :
    change_history_table_from_str "db.schema.table" =
      Except.ok ⟨"table", "schema", "db"⟩ ∧
    (∀ db sc t : String, mkChangeHistoryTable (some db) (some sc) (some t) =
      Except.ok ⟨t, sc, db⟩) ∧
    (∀ t : String, mkChangeHistoryTable Option.none Option.none (some t) =
      Except.ok ⟨t, "SCHEMACHANGE", "METADATA"⟩) ∧
    change_history_table_from_str "table" =
      Except.ok ⟨"table", "SCHEMACHANGE", "METADATA"⟩ ∧
    (∀ db sc : Option String,
      ∃ e, mkChangeHistoryTable db sc Option.none = Except.error e) :=
  ⟨rfl, fun _ _ _ => rfl, fun _ => rfl, rfl, fun _ _ => ⟨_, rfl⟩⟩

theorem oauth_message_eq (token_name : String) (response_dict : PyDict) :
    (dget response_dict "error_description" = Option.none →
      oauth_error_message token_name response_dict =
        "Response Json contains keys: " ++ joinComma (response_dict.map Prod.fst) ++
          " \n but not " ++ token_name) ∧
    (∀ d, dget response_dict "error_description" = some d →
      oauth_error_message token_name response_dict =
        "Response Json contains keys: " ++ joinComma (response_dict.map Prod.fst) ++
          " \n but not " ++ token_name ++ "\n error description: " ++ pyStr d) := by
  constructor
  · intro h
    simp only [oauth_error_message, h]
  · intro d h
    simp only [oauth_error_message, h]

theorem keys_infix_message (token_name : String) (response_dict : PyDict)
    (k : String) (hk : k ∈ response_dict.map Prod.fst) :
    k.data <:+: (oauth_error_message token_name response_dict).data := by
  have h1 := infix_joinComma _ _ hk
  rcases hd : dget response_dict "error_description" with _ | d
  · rw [(oauth_message_eq token_name response_dict).1 hd]
    rw [String.data_append, String.data_append, String.data_append]
    exact isInfix_append_right _ _ _
      (isInfix_append_right _ _ _ (isInfix_append_left _ _ _ h1))
  · rw [(oauth_message_eq token_name response_dict).2 d hd]
    rw [String.data_append, String.data_append, String.data_append,
      String.data_append, String.data_append]
    exact isInfix_append_right _ _ _ (isInfix_append_right _ _ _
      (isInfix_append_right _ _ _ (isInfix_append_right _ _ _
        (isInfix_append_left _ _ _ h1))))

theorem desc_infix_message (token_name : String) (response_dict : PyDict)
    (d : PyVal) (hd : dget response_dict "error_description" = some d) :
    (pyStr d).data <:+: (oauth_error_message token_name response_dict).data := by
  rw [(oauth_message_eq token_name response_dict).2 d hd]
  rw [String.data_append]
  exact isInfix_append_left _ _ _ (List.infix_refl _)

/-- C3: when the parsed OAuth response contains the configured token
field, its value is returned; when it does not, a lookup error is
raised whose message contains every key actually present in the
response and, when the response carries an error_description field,
that field's value as well. -/
theorem C3_oauth_token_extraction (token_name : String) (response_dict : PyDict) :
    (∀ v, dget response_dict token_name = some v →
      get_oauth_token_result token_name response_dict = Except.ok v) ∧
    (dget response_dict token_name = Option.none →
      get_oauth_token_result token_name response_dict =
        Except.error (oauth_error_message token_name response_dict) ∧
      (∀ k, k ∈ response_dict.map Prod.fst →
        k.data <:+: (oauth_error_message token_name response_dict).data) ∧
      (∀ d, dget response_dict "error_description" = some d →
        (pyStr d).data <:+: (oauth_error_message token_name response_dict).data)) := by
  constructor
  · intro v hv
    simp only [get_oauth_token_result, hv]
  · intro hnone
    refine ⟨by simp only [get_oauth_token_result, hnone], ?_, ?_⟩
    · intro k hk
      exact keys_infix_message _ _ _ hk
    · intro d hd
      exact desc_infix_message _ _ _ hd

/-- C3 witness: the two example responses of the spec — a response
holding access_token returns "abc"; a response with only error and
error_description fails with a message containing "error" and
"bad client". -/
theorem C3_oauth_token_extraction_witness :
    get_oauth_token_result "access_token" [("access_token", PyVal.str "abc")] =
      Except.ok (PyVal.str "abc") ∧
    get_oauth_token_result "access_token"
        [("error", PyVal.str "x"), ("error_description", PyVal.str "bad client")] =
      Except.error (oauth_error_message "access_token"
        [("error", PyVal.str "x"), ("error_description", PyVal.str "bad client")]) ∧
    "error".data <:+: (oauth_error_message "access_token"
      [("error", PyVal.str "x"), ("error_description", PyVal.str "bad client")]).data ∧
    "bad client".data <:+: (oauth_error_message "access_token"
      [("error", PyVal.str "x"), ("error_description", PyVal.str "bad client")]).data := by
  have h1 := (C3_oauth_token_extraction "access_token"
    [("access_token", PyVal.str "abc")]).1 (PyVal.str "abc") rfl
  have h2 := (C3_oauth_token_extraction "access_token"
    [("error", PyVal.str "x"), ("error_description", PyVal.str "bad client")]).2 rfl
  exact ⟨h1, h2.1, h2.2.1 "error" (by decide),
    h2.2.2 (PyVal.str "bad client") rfl⟩

/-- C10: a missing required OAuthConfig key makes get_oauth_token raise
a key-lookup error instead of ever reaching the POST (the outcome is a
keyError, never a requested outcome), and conversely a performed
request implies all four required keys were read successfully before
it. -/
theorem C10_oauth_required_keys (oauth_config response_dict : PyDict) :
    ((dget oauth_config "token-provider-url" = Option.none ∨
      dget oauth_config "token-request-headers" = Option.none ∨
      dget oauth_config "token-request-payload" = Option.none ∨
      dget oauth_config "token-response-name" = Option.none) →
      ∃ mk, get_oauth_token_model oauth_config response_dict =
        OAuthOutcome.keyError mk) ∧
    (∀ u h p tn r,
      get_oauth_token_model oauth_config response_dict =
        OAuthOutcome.requested u h p tn r →
      dget oauth_config "token-provider-url" = some u ∧
      dget oauth_config "token-request-headers" = some h ∧
      dget oauth_config "token-request-payload" = some p ∧
      dget oauth_config "token-response-name" = some tn) := by
  rcases h1 : dget oauth_config "token-provider-url" with _ | u0
  · refine ⟨fun _ => ⟨"token-provider-url",
      by simp only [get_oauth_token_model, h1]⟩, ?_⟩
    intro u h p tn r hr
    simp only [get_oauth_token_model, h1] at hr
    cases hr
  · rcases h2 : dget oauth_config "token-request-headers" with _ | h0
    · refine ⟨fun _ => ⟨"token-request-headers",
        by simp only [get_oauth_token_model, h1, h2]⟩, ?_⟩
      intro u h p tn r hr
      simp only [get_oauth_token_model, h1, h2] at hr
      cases hr
    · rcases h3 : dget oauth_config "token-request-payload" with _ | p0
      · refine ⟨fun _ => ⟨"token-request-payload",
          by simp only [get_oauth_token_model, h1, h2, h3]⟩, ?_⟩
        intro u h p tn r hr
        simp only [get_oauth_token_model, h1, h2, h3] at hr
        cases hr
      · rcases h4 : dget oauth_config "token-response-name" with _ | tn0
        · refine ⟨fun _ => ⟨"token-response-name",
            by simp only [get_oauth_token_model, h1, h2, h3, h4]⟩, ?_⟩
          intro u h p tn r hr
          simp only [get_oauth_token_model, h1, h2, h3, h4] at hr
          cases hr
        · constructor
          · intro hmiss
            rcases hmiss with hm | hm | hm | hm <;> simp at hm
          · intro u h p tn r hr
            simp only [get_oauth_token_model, h1, h2, h3, h4] at hr
            injection hr with e1 e2 e3 e4 e5
            subst e1
            subst e2
            subst e3
            subst e4
            exact ⟨rfl, rfl, rfl, rfl⟩

/-- C10 witness: an OAuthConfig with only the provider URL yields a
keyError outcome, with no request performed. -/
theorem C10_oauth_required_keys_witness :
    ∃ mk, get_oauth_token_model [("token-provider-url", PyVal.str "u")] [] =
      OAuthOutcome.keyError mk :=
  (C10_oauth_required_keys [("token-provider-url", PyVal.str "u")] []).1
    (Or.inr (Or.inl rfl))

theorem pnone_orElse (f : Unit → Option PyVal) : (Option.none).orElse f = f () := rfl

theorem psome_orElse (a : PyVal) (f : Unit → Option PyVal) :
    (some a).orElse f = some a := rfl

theorem dget_literals_ne (a b : PyVal) (k : String)
    (h1 : k ≠ "config_vars") (h2 : k ≠ "config_file_path") :
    dget [("config_vars", a), ("config_file_path", b)] k = Option.none := by
  rw [dget_cons, dget_cons,
    show (("config_vars" : String) == k) = false from by
      simp only [beq_eq_false_iff_ne]; exact fun e => h1 e.symm,
    show (("config_file_path" : String) == k) = false from by
      simp only [beq_eq_false_iff_ne]; exact fun e => h2 e.symm]
  simp [dget_nil]

/-- C1: in the final keyword set of the merge, a key present in both
the CLI and the normalized YAML maps carries the CLI value unless that
value is None, in which case it carries the (non-None) YAML value; no
key of the final set ever holds None; and a key that is None in both
sources (other than the two literal entries) is absent from the final
set altogether. -/
theorem C1_merge_precedence (p : String) (vars : PyDict)
    (yamlKwargs cliKwargs : PyDict) (k : String) (cv yv : PyVal)
    (hc : dget cliKwargs k = some cv) (hy : dget yamlKwargs k = some yv)
    (hnodupC : (cliKwargs.map Prod.fst).Nodup)
    (hnodupY : (yamlKwargs.map Prod.fst).Nodup) :
    (cv ≠ PyVal.none →
      dget (build_kwargs p vars yamlKwargs cliKwargs) k = some cv) ∧
    (cv = PyVal.none → yv ≠ PyVal.none →
      dget (build_kwargs p vars yamlKwargs cliKwargs) k = some yv) ∧
    (∀ k' v, dget (build_kwargs p vars yamlKwargs cliKwargs) k' = some v →
      v ≠ PyVal.none) ∧
    (cv = PyVal.none → yv = PyVal.none →
      k ≠ "config_vars" → k ≠ "config_file_path" →
      dget (build_kwargs p vars yamlKwargs cliKwargs) k = Option.none) := by
  refine ⟨?_, ?_, ?_, ?_⟩
  · intro hne
    have hfc := dget_filterNotNone_some cliKwargs k cv
      ((isNone_eq_false_iff cv).mpr hne) hc
    rw [build_kwargs, List.append_assoc, dget_append, hfc]
    rfl
  · intro hcv hne
    subst hcv
    have hfc := dget_filterNotNone_of_isNone cliKwargs k hnodupC hc
    have hfy := dget_filterNotNone_some yamlKwargs k yv
      ((isNone_eq_false_iff yv).mpr hne) hy
    rw [build_kwargs, List.append_assoc, dget_append, hfc, pnone_orElse,
      dget_append, hfy]
    rfl
  · intro k' v hv
    rw [build_kwargs, List.append_assoc, dget_append] at hv
    rcases hfc : dget (dfilterNotNone cliKwargs) k' with _ | w
    · rw [hfc, pnone_orElse, dget_append] at hv
      rcases hfy : dget (dfilterNotNone yamlKwargs) k' with _ | w
      · rw [hfy, pnone_orElse] at hv
        rw [dget_cons, dget_cons] at hv
        by_cases b1 : (("config_vars" : String) == k') = true
        · rw [if_pos b1] at hv
          injection hv with hv
          subst hv
          exact fun hh => PyVal.noConfusion hh
        · rw [if_neg b1] at hv
          by_cases b2 : (("config_file_path" : String) == k') = true
          · rw [if_pos b2] at hv
            injection hv with hv
            subst hv
            exact fun hh => PyVal.noConfusion hh
          · rw [if_neg b2] at hv
            cases hv
      · rw [hfy, psome_orElse] at hv
        injection hv with hv
        subst hv
        exact (isNone_eq_false_iff w).mp (dget_filterNotNone_notNone _ _ _ hfy)
    · rw [hfc, psome_orElse] at hv
      injection hv with hv
      subst hv
      exact (isNone_eq_false_iff w).mp (dget_filterNotNone_notNone _ _ _ hfc)
  · intro hcv hyv hk1 hk2
    subst hcv
    subst hyv
    have hfc := dget_filterNotNone_of_isNone cliKwargs k hnodupC hc
    have hfy := dget_filterNotNone_of_isNone yamlKwargs k hnodupY hy
    rw [build_kwargs, List.append_assoc, dget_append, hfc, pnone_orElse,
      dget_append, hfy, pnone_orElse, dget_literals_ne _ _ _ hk1 hk2]

/-- C1 witness: with CLI map a=None, b="B" and YAML map a="A", the
final keyword set holds a="A" (YAML wins over the unset CLI value). -/
theorem C1_merge_precedence_witness :
    dget (build_kwargs "cfg" []
      [("a", PyVal.str "A")] [("a", PyVal.none), ("b", PyVal.str "B")]) "a" =
      some (PyVal.str "A") :=
  (C1_merge_precedence "cfg" [] [("a", PyVal.str "A")]
    [("a", PyVal.none), ("b", PyVal.str "B")] "a" PyVal.none (PyVal.str "A")
    rfl rfl (by decide) (by decide)).2.1 rfl
    (fun hh => PyVal.noConfusion hh)

theorem get_merged_config_kwargs_ok (isDir : PyVal → Bool)
    (loadYaml : String → PyDict) (cliKwargs : PyDict) (cv yv : PyDict)
    (hcv : pop_vars_val cliKwargs = PyVal.dict cv)
    (hyv : pop_vars_val (get_yaml_config_kwargs (loadYaml
      (path_join (pyStr (resolve_config_folder (dremove cliKwargs "config_vars")))
        "schemachange-config.yml"))) = PyVal.dict yv)
    (hdir : isDir (resolve_config_folder (dremove cliKwargs "config_vars")) = true) :
    get_merged_config_kwargs isDir loadYaml cliKwargs =
      Except.ok (build_kwargs
        (path_join (pyStr (resolve_config_folder (dremove cliKwargs "config_vars")))
          "schemachange-config.yml")
        (dunion yv cv)
        (dremove (get_yaml_config_kwargs (loadYaml
          (path_join (pyStr (resolve_config_folder (dremove cliKwargs "config_vars")))
            "schemachange-config.yml"))) "config_vars")
        (dremove (dremove cliKwargs "config_vars") "config_folder")) := by
  simp only [get_merged_config_kwargs]
  rw [if_pos hdir, hcv, hyv]

/-- C2: the resolved config_vars mapping is the YAML vars overlaid by
the CLI vars with CLI entries winning per top-level key (no deep
merge); vars absent (or None) yield the empty mapping; and the merge of
CLI a="1" with YAML b="2" holds both a="1" and b="2". -/
theorem C2_config_vars_merge (isDir : PyVal → Bool) (loadYaml : String → PyDict)
    (cliKwargs : PyDict) (cv yv : PyDict)
    (hcv : pop_vars_val cliKwargs = PyVal.dict cv)
    (hyv : pop_vars_val (get_yaml_config_kwargs (loadYaml
      (path_join (pyStr (resolve_config_folder (dremove cliKwargs "config_vars")))
        "schemachange-config.yml"))) = PyVal.dict yv)
    (hdir : isDir (resolve_config_folder (dremove cliKwargs "config_vars")) = true) :
    (∃ kw, get_merged_config_kwargs isDir loadYaml cliKwargs = Except.ok kw ∧
      dget kw "config_vars" = some (PyVal.dict (dunion yv cv))) ∧
    (∀ k, dget (dunion yv cv) k = (dget cv k).orElse (fun _ => dget yv k)) ∧
    (∀ kwargs : PyDict, dget kwargs "config_vars" = Option.none →
      pop_vars_val kwargs = PyVal.dict []) ∧
    dunion ([] : PyDict) ([] : PyDict) = ([] : PyDict) ∧
    (dget (dunion [("b", PyVal.str "2")] [("a", PyVal.str "1")]) "a" =
        some (PyVal.str "1") ∧
      dget (dunion [("b", PyVal.str "2")] [("a", PyVal.str "1")]) "b" =
        some (PyVal.str "2")) := by
  refine ⟨⟨_, get_merged_config_kwargs_ok _ _ _ _ _ hcv hyv hdir, ?_⟩,
    ?_, ?_, rfl, rfl, rfl⟩
  · have h1 : dget (dremove (dremove cliKwargs "config_vars") "config_folder")
        "config_vars" = Option.none := by
      rw [dget_dremove_ne _ _ _ (by decide), dget_dremove_self]
    have h2 : dget (dremove (get_yaml_config_kwargs (loadYaml
        (path_join (pyStr (resolve_config_folder (dremove cliKwargs "config_vars")))
          "schemachange-config.yml"))) "config_vars") "config_vars" = Option.none :=
      dget_dremove_self _ _
    rw [build_kwargs, List.append_assoc, dget_append,
      dget_filterNotNone_of_none _ _ h1, pnone_orElse, dget_append,
      dget_filterNotNone_of_none _ _ h2, pnone_orElse, dget_cons,
      if_pos (by rfl)]
  · intro k
    rw [dunion, dget_append]
  · intro kwargs h
    rw [pop_vars_val, h]

/-- C2 witness: CLI vars a="1" with YAML vars b="2" resolve to the
mapping holding a="1" and b="2". -/
theorem C2_config_vars_merge_witness :
    (∃ kw, get_merged_config_kwargs (fun _ => true)
        (fun _ => [("vars", PyVal.dict [("b", PyVal.str "2")])])
        [("config_vars", PyVal.dict [("a", PyVal.str "1")])] = Except.ok kw ∧
      dget kw "config_vars" = some (PyVal.dict
        (dunion [("b", PyVal.str "2")] [("a", PyVal.str "1")]))) ∧
    dget (dunion [("b", PyVal.str "2")] [("a", PyVal.str "1")]) "a" =
      some (PyVal.str "1") ∧
    dget (dunion [("b", PyVal.str "2")] [("a", PyVal.str "1")]) "b" =
      some (PyVal.str "2") := by
  have h := C2_config_vars_merge (fun _ => true)
    (fun _ => [("vars", PyVal.dict [("b", PyVal.str "2")])])
    [("config_vars", PyVal.dict [("a", PyVal.str "1")])]
    [("a", PyVal.str "1")] [("b", PyVal.str "2")] rfl rfl rfl
  exact ⟨h.1, h.2.2.2.2⟩

/-- C8: an invalid config folder (missing or not a directory) is a
fatal error reported before any configuration file is read: the result
is the directory error and does not depend on the configuration file
contents at all. -/
theorem C8_invalid_folder_before_read (isDir : PyVal → Bool)
    (loadYaml1 loadYaml2 : String → PyDict) (cliKwargs : PyDict)
    (h : isDir (resolve_config_folder (dremove cliKwargs "config_vars")) = false) :
    get_merged_config_kwargs isDir loadYaml1 cliKwargs =
      Except.error (dir_error_message
        (resolve_config_folder (dremove cliKwargs "config_vars"))) ∧
    get_merged_config_kwargs isDir loadYaml1 cliKwargs =
      get_merged_config_kwargs isDir loadYaml2 cliKwargs := by
  have herr : ∀ l : String → PyDict,
      get_merged_config_kwargs isDir l cliKwargs =
        Except.error (dir_error_message
          (resolve_config_folder (dremove cliKwargs "config_vars"))) := by
    intro l
    simp only [get_merged_config_kwargs]
    rw [if_neg (by rw [h]; exact Bool.false_ne_true)]
  exact ⟨herr loadYaml1, (herr loadYaml1).trans (herr loadYaml2).symm⟩

/-- C8 witness: with a filesystem on which no path is a directory,
resolution fails with the directory error for the default folder "."
whatever the configuration file would have contained. -/
theorem C8_invalid_folder_before_read_witness :
    get_merged_config_kwargs (fun _ => false) (fun _ => []) [] =
      Except.error (dir_error_message
        (resolve_config_folder (dremove ([] : PyDict) "config_vars"))) ∧
    get_merged_config_kwargs (fun _ => false) (fun _ => []) [] =
      get_merged_config_kwargs (fun _ => false)
        (fun _ => [("snowflake-account", PyVal.str "x")]) [] :=
  C8_invalid_folder_before_read (fun _ => false) (fun _ => [])
    (fun _ => [("snowflake-account", PyVal.str "x")]) [] rfl

/-- C9 counterexample: with the default folder "." and a YAML file
whose only key is config-file-path, the config_file_path recorded in
the merged keyword set is the YAML value ELSEWHERE, not the fixed join
schemachange-config.yml: a YAML config-file-path key (normalized to
config_file_path) overrides the recorded literal. -/
theorem C9_counterexample :
    (get_merged_config_kwargs (fun _ => true)
        (fun _ => [("config-file-path", PyVal.str "ELSEWHERE")]) []).map
      (fun kw => dget kw "config_file_path") =
      Except.ok (some (PyVal.str "ELSEWHERE")) ∧
    path_join (pyStr (resolve_config_folder (dremove ([] : PyDict) "config_vars")))
      "schemachange-config.yml" = "schemachange-config.yml" ∧
    some (PyVal.str "ELSEWHERE") ≠ some (PyVal.str "schemachange-config.yml") := by
  refine ⟨rfl, rfl, ?_⟩
  intro h
  injection h with h
  injection h with h
  exact absurd h (by decide)

/-- C9 (amended): the config folder resolves to the CLI-supplied value
when one is supplied and to "." otherwise; the configuration file is
read exactly at the join <config folder>/schemachange-config.yml (the
resolution result depends on the YAML loader only at that path); and
the config_file_path recorded in the merged keyword set equals that
join whenever neither the remaining CLI entries nor the normalized YAML
mapping carry a config_file_path key of their own (a YAML
config-file-path key, normalized to config_file_path, overrides the
recorded value — see the counterexample). -/
theorem C9_config_file_path :
    (∀ (kwargs : PyDict) (f : PyVal), dget kwargs "config_folder" = some f →
      resolve_config_folder kwargs = f) ∧
    (∀ kwargs : PyDict, dget kwargs "config_folder" = Option.none →
      resolve_config_folder kwargs = PyVal.str ".") ∧
    (∀ (isDir : PyVal → Bool) (l1 l2 : String → PyDict) (cliKwargs : PyDict),
      l1 (path_join (pyStr (resolve_config_folder (dremove cliKwargs "config_vars")))
        "schemachange-config.yml") =
      l2 (path_join (pyStr (resolve_config_folder (dremove cliKwargs "config_vars")))
        "schemachange-config.yml") →
      get_merged_config_kwargs isDir l1 cliKwargs =
        get_merged_config_kwargs isDir l2 cliKwargs) ∧
    (∀ (isDir : PyVal → Bool) (loadYaml : String → PyDict) (cliKwargs : PyDict)
      (cv yv : PyDict),
      pop_vars_val cliKwargs = PyVal.dict cv →
      pop_vars_val (get_yaml_config_kwargs (loadYaml
        (path_join (pyStr (resolve_config_folder (dremove cliKwargs "config_vars")))
          "schemachange-config.yml"))) = PyVal.dict yv →
      isDir (resolve_config_folder (dremove cliKwargs "config_vars")) = true →
      dget (dremove (dremove cliKwargs "config_vars") "config_folder")
        "config_file_path" = Option.none →
      dget (dremove (get_yaml_config_kwargs (loadYaml
        (path_join (pyStr (resolve_config_folder (dremove cliKwargs "config_vars")))
          "schemachange-config.yml"))) "config_vars") "config_file_path" =
        Option.none →
      ∃ kw, get_merged_config_kwargs isDir loadYaml cliKwargs = Except.ok kw ∧
        dget kw "config_file_path" = some (PyVal.str
          (path_join (pyStr (resolve_config_folder (dremove cliKwargs "config_vars")))
            "schemachange-config.yml"))) := by
  refine ⟨?_, ?_, ?_, ?_⟩
  · intro kwargs f h
    rw [resolve_config_folder, h]
    rfl
  · intro kwargs h
    rw [resolve_config_folder, h]
    rfl
  · intro isDir l1 l2 cliKwargs h
    simp only [get_merged_config_kwargs]
    rw [h]
  · intro isDir loadYaml cliKwargs cv yv hcv hyv hdir hnc hny
    refine ⟨_, get_merged_config_kwargs_ok _ _ _ _ _ hcv hyv hdir, ?_⟩
    rw [build_kwargs, List.append_assoc, dget_append,
      dget_filterNotNone_of_none _ _ hnc, pnone_orElse, dget_append,
      dget_filterNotNone_of_none _ _ hny, pnone_orElse, dget_cons,
      if_neg (by decide), dget_cons, if_pos (by rfl)]

/-- C9 witness: with no CLI config folder the folder is ".", and an
absent YAML file records config_file_path = schemachange-config.yml
(the join of "." with the fixed filename). -/
theorem C9_config_file_path_witness :
    resolve_config_folder ([] : PyDict) = PyVal.str "." ∧
    (∃ kw, get_merged_config_kwargs (fun _ => true) (fun _ => []) [] =
        Except.ok kw ∧
      dget kw "config_file_path" = some (PyVal.str
        (path_join (pyStr (resolve_config_folder (dremove ([] : PyDict) "config_vars")))
          "schemachange-config.yml"))) :=
  ⟨C9_config_file_path.2.1 [] rfl,
    C9_config_file_path.2.2.2 (fun _ => true) (fun _ => []) [] [] []
      rfl rfl rfl rfl rfl⟩
